import Mathlib

/-!
Shallow embedding of `NanopolishComp/Eventalign_collapse.py` (the streaming
eventalign-collapse pipeline): the event data model, the per-kmer aggregation
(`_init_kmer_dict` / `_update_kmer_dict`), the per-read collapse loop
(`_process_read`), the reader's grouping loop (`_split_reads`), the writer's
offset/index bookkeeping (`_write_output`), and the eager argument checks of
`Eventalign_collapse.__init__`.

Python floats are modelled as rationals (`ℚ`): every claim under scrutiny is
about order-respecting sums and zero tests of durations, which the embedding
preserves.  The textual rendering of floats (Python `str(float)` and the numpy
statistics) is not embeddable bit-for-bit and is kept as an explicit parameter
of the run-wide configuration (`Config.renderFloat` / `Config.renderStat`);
integer rendering is embedded concretely.
-/

namespace EventalignCollapse

/-- One parsed input row, as produced by `_event_list_to_dict`: the required
fields plus the two optional groups (`start_idx`/`end_idx` pair, raw samples).
`idx = none` models the absence of the optional columns in the input header. -/
structure Event where
  ref_pos : Int
  ref_kmer : String
  mod_kmer : String
  event_len : ℚ
  idx : Option (Int × Int) := none
  sample_list : Option (List String) := none
deriving DecidableEq

/-- The mutable kmer aggregate dictionary built by `_init_kmer_dict` and
mutated by `_update_kmer_dict`.  `start_idx`/`end_idx`/`sample_list` are
`none` when the optional input columns are absent (key not in the dict). -/
structure KmerD where
  ref_pos : Int
  ref_kmer : String
  num_events : Nat
  dwell_time : ℚ
  NNNNN_dwell_time : ℚ
  mismatch_dwell_time : ℚ
  start_idx : Option Int
  end_idx : Option Int
  sample_list : Option (List String)
deriving DecidableEq

/-- `_init_kmer_dict` (source lines 404-422): seed a new aggregate from one
event.  The `if mod == "NNNNN" / elif mod != ref` chain becomes two
mutually-exclusive conditionals. -/
def init_kmer_dict (e : Event) : KmerD :=
  { ref_pos := e.ref_pos
    ref_kmer := e.ref_kmer
    num_events := 1
    dwell_time := e.event_len
    NNNNN_dwell_time := if e.mod_kmer = "NNNNN" then e.event_len else 0
    mismatch_dwell_time :=
      if e.mod_kmer ≠ "NNNNN" ∧ e.mod_kmer ≠ e.ref_kmer then e.event_len else 0
    start_idx := match e.idx with | some (s, _) => some s | none => none
    end_idx := match e.idx with | some (_, t) => some t | none => none
    sample_list := e.sample_list }

/-- `_update_kmer_dict` (source lines 424-436): fold a subsequent event into
the aggregate.  Note that, exactly as in the source, only `start_idx` is
overwritten from the new event — `end_idx` keeps its seeded value — and the
sample list is extended. -/
def update_kmer_dict (k : KmerD) (e : Event) : KmerD :=
  { k with
    num_events := k.num_events + 1
    dwell_time := k.dwell_time + e.event_len
    NNNNN_dwell_time :=
      if e.mod_kmer = "NNNNN" then k.NNNNN_dwell_time + e.event_len
      else k.NNNNN_dwell_time
    mismatch_dwell_time :=
      if e.mod_kmer ≠ "NNNNN" ∧ e.mod_kmer ≠ e.ref_kmer then
        k.mismatch_dwell_time + e.event_len
      else k.mismatch_dwell_time
    start_idx := match e.idx with | some (s, _) => some s | none => k.start_idx
    sample_list :=
      match e.sample_list with
      | some sl => some (k.sample_list.getD [] ++ sl)
      | none => k.sample_list }

/-- The sequence of finalized aggregates produced by the `_process_read` loop:
same-position events are folded in, a position change finalizes the current
aggregate and seeds a new one, and the last aggregate is finalized at the end
(source lines 261-295, projected onto the aggregates). -/
def collapse_kmer_list : KmerD → List Event → List KmerD
  | kd, [] => [kd]
  | kd, e :: rest =>
    if e.ref_pos - kd.ref_pos = 0 then collapse_kmer_list (update_kmer_dict kd e) rest
    else kd :: collapse_kmer_list (init_kmer_dict e) rest

/-- Decimal digit character, as in Python's integer formatting. -/
def digit_char (n : Nat) : Char :=
  match n % 10 with
  | 0 => '0' | 1 => '1' | 2 => '2' | 3 => '3' | 4 => '4'
  | 5 => '5' | 6 => '6' | 7 => '7' | 8 => '8' | _ => '9'

/-- Decimal digits of a natural number, most significant first
(Python `str(int)` for nonnegative values). -/
def nat_digits (n : Nat) : List Char :=
  if h : n < 10 then [digit_char n]
  else nat_digits (n / 10) ++ [digit_char n]
decreasing_by exact Nat.div_lt_self (by omega) (by omega)

/-- Python `str` of a natural number. -/
def natStr (n : Nat) : String := ⟨nat_digits n⟩

/-- Python `str` of an integer. -/
def intStr (i : Int) : String :=
  if i < 0 then "-" ++ natStr i.natAbs else natStr i.toNat

/-- The run-wide configuration fixed by `Eventalign_collapse.__init__`:
selected statistic fields, whether raw samples are written, and the two
floating-point text renderers that the embedding keeps abstract
(`str(float)` and the numpy statistic of a raw sample list). -/
structure Config where
  stat_fields : List String
  write_samples : Bool
  renderFloat : ℚ → String
  renderStat : String → List String → String

/-- Python's `",".join` over the raw sample strings (source line 467). -/
def comma_join : List String → String
  | [] => ""
  | [s] => s
  | s :: rest => s ++ "," ++ comma_join rest

/-- The statistic columns appended to a kmer line when the raw-sample column
is active (source lines 456-465): one `\t`-prefixed value per selected field,
in the source's fixed order.  The sequential `s += ...` under each condition
is rendered as the concatenation of conditional pieces. -/
def stat_suffix (cfg : Config) (sl : List String) : String :=
  (if "mean" ∈ cfg.stat_fields then "\t" ++ cfg.renderStat "mean" sl else "")
  ++ (if "std" ∈ cfg.stat_fields then "\t" ++ cfg.renderStat "std" sl else "")
  ++ (if "median" ∈ cfg.stat_fields then "\t" ++ cfg.renderStat "median" sl else "")
  ++ (if "mad" ∈ cfg.stat_fields then "\t" ++ cfg.renderStat "mad" sl else "")
  ++ (if "num_signals" ∈ cfg.stat_fields then "\t" ++ cfg.renderStat "num_signals" sl else "")

/-- `_kmer_dict_to_str` (source lines 438-468): tab-joined base fields, then
the optional index fields, then the configured statistics over the sample
list, then optionally the raw samples. -/
def kmer_dict_to_str (cfg : Config) (k : KmerD) : String :=
  let s := intStr k.ref_pos ++ "\t" ++ k.ref_kmer ++ "\t" ++ natStr k.num_events
      ++ "\t" ++ cfg.renderFloat k.dwell_time
      ++ "\t" ++ cfg.renderFloat k.NNNNN_dwell_time
      ++ "\t" ++ cfg.renderFloat k.mismatch_dwell_time
  let s := match k.start_idx with
    | some si => s ++ "\t" ++ intStr si ++ "\t" ++ intStr (k.end_idx.getD 0)
    | none => s
  match k.sample_list with
  | some sl =>
    s ++ stat_suffix cfg sl
      ++ (if cfg.write_samples then "\t" ++ comma_join sl else "")
  | none => s

/-- The statistic column names appended to the header line when the
raw-sample column is active (source lines 478-487), same order. -/
def header_stat_suffix (cfg : Config) : String :=
  (if "mean" ∈ cfg.stat_fields then "\tmean" else "")
  ++ (if "std" ∈ cfg.stat_fields then "\tstd" else "")
  ++ (if "median" ∈ cfg.stat_fields then "\tmedian" else "")
  ++ (if "mad" ∈ cfg.stat_fields then "\tmad" else "")
  ++ (if "num_signals" ∈ cfg.stat_fields then "\tnum_signals" else "")

/-- `_make_ouput_header` (source lines 470-490; the source's own spelling):
the dynamic column-header line of one read's block. -/
def make_ouput_header (cfg : Config) (e : Event) : String :=
  let s := "ref_pos\tref_kmer\tnum_events\tdwell_time\tNNNNN_dwell_time\tmismatch_dwell_time"
  let s := match e.idx with | some _ => s ++ "\tstart_idx\tend_idx" | none => s
  match e.sample_list with
  | some _ =>
    s ++ header_stat_suffix cfg ++ (if cfg.write_samples then "\tsamples" else "")
  | none => s

/-- The per-read summary dictionary `read_d` built by `_process_read`.
`ref_end` is absent from the Python dict until the final update; it is always
assigned before the dict is emitted, so the placeholder initial value `0` is
never observable. -/
structure ReadD where
  read_id : String
  ref_id : String
  dwell_time : ℚ
  kmers : Nat
  NNNNN_kmers : Nat
  mismatch_kmers : Nat
  missing_kmers : Int
  ref_start : Int
  ref_end : Int
deriving DecidableEq

/-- The inner event loop of `_process_read` (source lines 261-281), threading
the summary, the current aggregate, the accumulated text and the Python local
`pos_offset` (which is assigned on every iteration and read again after the
loop). -/
def processEvents (cfg : Config) (rd : ReadD) (kd : KmerD) (acc : String)
    (po : Option Int) : List Event → ReadD × KmerD × String × Option Int
  | [] => (rd, kd, acc, po)
  | e :: rest =>
    let pos_offset := e.ref_pos - kd.ref_pos
    if pos_offset = 0 then
      processEvents cfg rd (update_kmer_dict kd e) acc (some pos_offset) rest
    else
      let rd' := { rd with
        dwell_time := rd.dwell_time + kd.dwell_time
        NNNNN_kmers := if kd.NNNNN_dwell_time ≠ 0 then rd.NNNNN_kmers + 1 else rd.NNNNN_kmers
        mismatch_kmers := if kd.mismatch_dwell_time ≠ 0 then rd.mismatch_kmers + 1 else rd.mismatch_kmers
        missing_kmers := if 2 ≤ pos_offset then rd.missing_kmers + (pos_offset - 1) else rd.missing_kmers
        kmers := rd.kmers + 1 }
      processEvents cfg rd' (init_kmer_dict e)
        (acc ++ kmer_dict_to_str cfg kd ++ "\n") (some pos_offset) rest

/-- The header lines written to `read_str` before the event loop (source
lines 243-244). -/
def read_header_str (cfg : Config) (read_id ref_id : String) (e0 : Event) : String :=
  "#" ++ read_id ++ "\t" ++ ref_id ++ "\n" ++ make_ouput_header cfg e0 ++ "\n"

/-- The `read_d` dictionary as initialized at source lines 250-258. -/
def initial_read_d (read_id ref_id : String) (e0 : Event) : ReadD :=
  { read_id := read_id, ref_id := ref_id, dwell_time := 0,
    kmers := 0, NNNNN_kmers := 0, mismatch_kmers := 0,
    missing_kmers := 0, ref_start := (init_kmer_dict e0).ref_pos, ref_end := 0 }

/-- `_process_read` on one read group (source lines 240-298).  `po0` is the
value of the worker's local variable `pos_offset` when the group is taken off
the queue: `none` for a fresh worker (the variable is unbound, and reading it
at the final `if pos_offset >= 2` raises `UnboundLocalError`), `some v` when
a previously processed group left `v` behind.  Errors caught by the worker's
`except` clause (no pair emitted) are modelled as `.error ()`. -/
def processRead (cfg : Config) (read_id ref_id : String) (read_l : List Event)
    (po0 : Option Int) : Except Unit (ReadD × String × Option Int) :=
  match read_l with
  | [] => .error ()
  | e0 :: rest =>
    let t := processEvents cfg (initial_read_d read_id ref_id e0) (init_kmer_dict e0)
        (read_header_str cfg read_id ref_id e0) po0 rest
    let rd := t.1
    let kd := t.2.1
    let acc := t.2.2.1
    let rd := { rd with dwell_time := rd.dwell_time + kd.dwell_time }
    let rd := if kd.NNNNN_dwell_time ≠ 0 then { rd with NNNNN_kmers := rd.NNNNN_kmers + 1 } else rd
    let rd := if kd.mismatch_dwell_time ≠ 0 then { rd with mismatch_kmers := rd.mismatch_kmers + 1 } else rd
    match t.2.2.2 with
    | none => .error ()
    | some v =>
      let rd := if 2 ≤ v then { rd with missing_kmers := rd.missing_kmers + (v - 1) } else rd
      let rd := { rd with ref_end := kd.ref_pos + 1, kmers := rd.kmers + 1 }
      .ok (rd, acc ++ kmer_dict_to_str cfg kd ++ "\n", some v)

/-- One parsed data row as seen by the reader: the two grouping keys plus the
event payload. -/
structure Row where
  read_id : String
  ref_id : String
  event : Event
deriving DecidableEq

/-- A read group as put on the work queue: `(cur_read_id, cur_ref_id, read_l)`. -/
abbrev Group := String × String × List Event

/-- The truthiness test `self.max_reads and n_reads == self.max_reads`
(source line 200): `None` and `0` are both falsy. -/
def max_reads_hit (max_reads : Option Nat) (n : Nat) : Bool :=
  match max_reads with
  | some m => m != 0 && n == m
  | none => false

/-- The reader's per-file line loop (source lines 198-217): for each row,
first the read-count ceiling test (`max_reads` truthy and `n_reads` equal to
it raises `MaxReadsException`, modelled by the `Bool` flag), then a key change
flushes the pending group, and the row is appended to the pending list.
Returns the groups flushed inside this file and the final reader state. -/
def split_file_loop (max_reads : Option Nat) :
    Nat → String → String → List Event → List Row →
    List Group × Nat × String × String × List Event × Bool
  | n, rid, ref, acc, [] => ([], n, rid, ref, acc, false)
  | n, rid, ref, acc, row :: rest =>
    if max_reads_hit max_reads n then
      ([], n, rid, ref, acc, true)
    else if row.read_id ≠ rid ∨ row.ref_id ≠ ref then
      let t := split_file_loop max_reads (n + 1) row.read_id row.ref_id [row.event] rest
      ((rid, ref, acc) :: t.1, t.2)
    else
      split_file_loop max_reads n rid ref (acc ++ [row.event]) rest

/-- The reader's file loop (source lines 182-221): run the line loop on each
file's data rows, then — unless the ceiling stopped the run — flush the
pending group at end of file.  Exactly as in the source, neither the pending
list nor the current key is reset after that end-of-file flush. -/
def split_files_go (max_reads : Option Nat) :
    Nat → String → String → List Event → List (List Row) → List Group
  | _, _, _, _, [] => []
  | n, rid, ref, acc, file :: more =>
    let t := split_file_loop max_reads n rid ref acc file
    if t.2.2.2.2.2 then t.1
    else t.1 ++ [(t.2.2.1, t.2.2.2.1, t.2.2.2.2.1)]
      ++ split_files_go max_reads (t.2.1 + 1) t.2.2.1 t.2.2.2.1 t.2.2.2.2.1 more

/-- `_split_reads` (source lines 164-231) restricted to its data-flow: files
are given as lists of parsed data rows (header consumption and field-index
resolution abstracted away).  The first data line of the first file seeds the
reader state (source lines 190-196); an empty first file crashes there,
modelled as `.error ()`.  Returns the groups put on the work queue, in order. -/
def split_reads (files : List (List Row)) (max_reads : Option Nat) :
    Except Unit (List Group) :=
  match files with
  | [] => .ok []
  | file0 :: more =>
    match file0 with
    | [] => .error ()
    | r0 :: rest0 =>
      .ok (split_files_go max_reads 0 r0.read_id r0.ref_id [r0.event] (rest0 :: more))

/-- One line of the companion index file (source lines 332-343): the
`ReadSummary` fields plus the byte offset before the block was written and
the block's length minus the trailing newline. -/
structure IndexRecord where
  ref_id : String
  ref_start : Int
  ref_end : Int
  read_id : String
  kmers : Nat
  dwell_time : ℚ
  NNNNN_kmers : Nat
  mismatch_kmers : Nat
  missing_kmers : Int
  byte_offset : Nat
  byte_len : Int
deriving DecidableEq

/-- The writer's drain loop (source lines 326-351) at a given running byte
offset: write each block to the data file, emit its index record, advance the
offset by the block's full length; after the last item append the `"#\n"`
end-of-data sentinel.  Returns the data-file content and the index records. -/
def write_output_go : Nat → List (ReadD × String) → String × List IndexRecord
  | _, [] => ("#\n", [])
  | off, (rd, s) :: rest =>
    let t := write_output_go (off + s.length) rest
    (s ++ t.1,
     { ref_id := rd.ref_id, ref_start := rd.ref_start, ref_end := rd.ref_end,
       read_id := rd.read_id, kmers := rd.kmers, dwell_time := rd.dwell_time,
       NNNNN_kmers := rd.NNNNN_kmers, mismatch_kmers := rd.mismatch_kmers,
       missing_kmers := rd.missing_kmers, byte_offset := off,
       byte_len := (s.length : Int) - 1 } :: t.2)

/-- `_write_output` on the sequence of (summary, block) pairs in arrival
order, starting from `byte_offset = 0` (source line 313). -/
def write_output (items : List (ReadD × String)) : String × List IndexRecord :=
  write_output_go 0 items

/-- The valid statistic field names (source line 115). -/
def valid_stat_fields : List String := ["mean", "std", "median", "mad", "num_signals"]

/-- The stat-field validation loop of `__init__` (source lines 114-116). -/
def check_stat_fields : List String → Except String Unit
  | [] => .ok ()
  | f :: rest =>
    if f ∈ valid_stat_fields then check_stat_fields rest
    else .error ("Invalid value in stat_field " ++ f)

/-- The eager argument checks of `Eventalign_collapse.__init__` (source lines
110-116): the thread budget first, then each statistic field name. -/
def check_args (threads : Int) (stat_fields : List String) : Except String Unit :=
  if threads < 3 then .error "At least 3 threads required"
  else check_stat_fields stat_fields

/-- A single worker draining the work queue in order: its local `pos_offset`
persists from one group to the next (it is a function-level local of
`_process_read`), which this threading makes explicit. -/
def worker_loop (cfg : Config) : Option Int → List Group →
    Except Unit (List (ReadD × String))
  | _, [] => .ok []
  | po, g :: rest => do
    let r ← processRead cfg g.1 g.2.1 g.2.2 po
    let more ← worker_loop cfg r.2.2 rest
    .ok ((r.1, r.2.1) :: more)

/-- Sequential determinization of the pipeline body: reader, one worker,
writer (the claims settled against it do not depend on the worker count). -/
def run_collapse (cfg : Config) (files : List (List Row)) (max_reads : Option Nat) :
    Except Unit (String × List IndexRecord) := do
  let gs ← split_reads files max_reads
  let pairs ← worker_loop cfg none gs
  .ok (write_output pairs)

/-- `Eventalign_collapse.__init__` as observed from outside: validate the
configuration eagerly; only on success are the pipeline stages launched and
any output produced (source: checks at lines 110-116 precede the process
starts at lines 132-143). -/
def eventalign_collapse_init (threads : Int) (stat_fields : List String)
    (cfg : Config) (files : List (List Row)) (max_reads : Option Nat) :
    Except String (String × List IndexRecord) :=
  match check_args threads stat_fields with
  | .error e => .error e
  | .ok _ => (run_collapse cfg files max_reads).mapError (fun _ => "NanopolishCompError")

/-- Modelled from the spec: the number of reference positions strictly
between `ref_start` and `ref_end` carrying no event — the spec's definition
of the missing-kmer count ("a reference position with zero observed events"),
used as the comparison point for the code's `missing_kmers` counter. -/
def spec_missing_kmers (l : List Event) (ref_start ref_end : Int) : Nat :=
  ((List.range (ref_end - ref_start - 1).toNat).map (fun i => ref_start + 1 + (i : Int))).countP
    (fun p => !(l.any (fun e => e.ref_pos == p)))

/-- A sample-free, index-free event at a given position with unit duration. -/
def evt (p : Int) : Event :=
  { ref_pos := p, ref_kmer := "AAAAA", mod_kmer := "AAAAA", event_len := 1 }

/-- A sample-free event at position `p` with unit duration and the optional
sample-index columns present as `(s, t)`. -/
def ev_idx (p s t : Int) : Event :=
  { ref_pos := p, ref_kmer := "AAAAA", mod_kmer := "AAAAA", event_len := 1,
    idx := some (s, t) }

/-- A concrete configuration for witnesses: the default statistic selection,
raw-sample writing off, trivial float renderers. -/
def cfg0 : Config :=
  { stat_fields := ["mean", "median", "num_signals"], write_samples := false,
    renderFloat := fun _ => "", renderStat := fun _ _ => "" }

/-! ### Helper lemmas on the kmer aggregation -/

lemma update_kmer_dict_ref_pos (k : KmerD) (e : Event) :
    (update_kmer_dict k e).ref_pos = k.ref_pos := rfl

lemma foldl_update_stats (l : List Event) : ∀ k : KmerD,
    (List.foldl update_kmer_dict k l).num_events = k.num_events + l.length ∧
    (List.foldl update_kmer_dict k l).dwell_time
      = k.dwell_time + (l.map Event.event_len).sum ∧
    (List.foldl update_kmer_dict k l).NNNNN_dwell_time
      = k.NNNNN_dwell_time
        + ((l.filter (fun e => decide (e.mod_kmer = "NNNNN"))).map Event.event_len).sum ∧
    (List.foldl update_kmer_dict k l).mismatch_dwell_time
      = k.mismatch_dwell_time
        + ((l.filter (fun e => decide (e.mod_kmer ≠ "NNNNN" ∧ e.mod_kmer ≠ e.ref_kmer))).map
            Event.event_len).sum := by
  induction l with
  | nil => intro k; simp
  | cons e rest ih =>
    intro k
    have h := ih (update_kmer_dict k e)
    refine ⟨?_, ?_, ?_, ?_⟩
    · rw [List.foldl_cons, h.1]; simp [update_kmer_dict]; omega
    · rw [List.foldl_cons, h.2.1]; simp [update_kmer_dict]; ring
    · rw [List.foldl_cons, h.2.2.1]
      by_cases hm : e.mod_kmer = "NNNNN"
      · simp [update_kmer_dict, hm, List.filter_cons]; ring
      · simp [update_kmer_dict, hm, List.filter_cons]
    · rw [List.foldl_cons, h.2.2.2]
      by_cases hc : e.mod_kmer ≠ "NNNNN" ∧ e.mod_kmer ≠ e.ref_kmer
      · simp [update_kmer_dict, hc, List.filter_cons]; ring
      · simp [update_kmer_dict, hc, List.filter_cons]

lemma collapse_same_pos (l : List Event) : ∀ k : KmerD,
    (∀ e ∈ l, e.ref_pos = k.ref_pos) →
    collapse_kmer_list k l = [List.foldl update_kmer_dict k l] := by
  induction l with
  | nil => intro k _; rfl
  | cons e rest ih =>
    intro k h
    have he : e.ref_pos - k.ref_pos = 0 := by
      have := h e (by simp); omega
    simp only [collapse_kmer_list, he, if_pos, List.foldl_cons]
    exact ih (update_kmer_dict k e) (fun e' he' => by
      rw [update_kmer_dict_ref_pos]; exact h e' (by simp [he']))

/-! ### Claim theorems -/

/-- C1 — the claim is FALSE on the code: for the non-decreasing group with
positions `[10, 13]`, `_process_read` re-applies the `missing_kmers` update
after the loop with the stale final `pos_offset` (source line 289), counting
the final gap twice: the code yields `missing_kmers = 4` while the number of
reference positions strictly between `ref_start = 10` and `ref_end = 14` with
no event is `2`. -/
theorem missing_kmers_double_counts_last_gap :
    (processRead cfg0 "r" "c" [evt 10, evt 13] none).map
      (fun t => (t.1.missing_kmers, t.1.ref_start, t.1.ref_end)) = .ok (4, 10, 14) ∧
    spec_missing_kmers [evt 10, evt 13] 10 14 = 2 ∧
    (4 : Int) ≠ ((2 : Nat) : Int) := ⟨rfl, rfl, by decide⟩

/-- C2 — the claim is FALSE on the code: `_split_reads` flushes the pending
group at end of file without clearing `read_l` or the current key (source
lines 219-221), so with two files the rows of file 1's last group are emitted
again: merged into file 2's first group when the keys coincide, and duplicated
as a whole group when they differ. -/
theorem split_reads_re_emits_rows_across_files :
    split_reads [[⟨"r", "c", evt 10⟩], [⟨"r", "c", evt 11⟩]] none
      = .ok [("r", "c", [evt 10]), ("r", "c", [evt 10, evt 11])] ∧
    split_reads [[⟨"r", "c", evt 10⟩], [⟨"r2", "c", evt 11⟩]] none
      = .ok [("r", "c", [evt 10]), ("r", "c", [evt 10]), ("r2", "c", [evt 11])] :=
  ⟨rfl, rfl⟩

/-- C3 — for a non-empty read group whose events all share one reference
position, the collapse finalizes exactly one aggregate, namely the fold of
`_update_kmer_dict` over the tail starting from `_init_kmer_dict` of the
head, and that aggregate's event count, total dwell time, and the two
mutually-exclusive dwell-time buckets are the claimed sums. -/
theorem same_position_group_collapse (e0 : Event) (rest : List Event)
    (h : ∀ e ∈ e0 :: rest, e.ref_pos = e0.ref_pos) :
    collapse_kmer_list (init_kmer_dict e0) rest
      = [List.foldl update_kmer_dict (init_kmer_dict e0) rest] ∧
    (List.foldl update_kmer_dict (init_kmer_dict e0) rest).num_events
      = (e0 :: rest).length ∧
    (List.foldl update_kmer_dict (init_kmer_dict e0) rest).dwell_time
      = ((e0 :: rest).map Event.event_len).sum ∧
    (List.foldl update_kmer_dict (init_kmer_dict e0) rest).NNNNN_dwell_time
      = (((e0 :: rest).filter (fun e => decide (e.mod_kmer = "NNNNN"))).map
          Event.event_len).sum ∧
    (List.foldl update_kmer_dict (init_kmer_dict e0) rest).mismatch_dwell_time
      = (((e0 :: rest).filter
            (fun e => decide (e.mod_kmer ≠ "NNNNN" ∧ e.mod_kmer ≠ e.ref_kmer))).map
          Event.event_len).sum := by
  have hs := foldl_update_stats rest (init_kmer_dict e0)
  refine ⟨collapse_same_pos rest (init_kmer_dict e0) ?_, ?_, ?_, ?_, ?_⟩
  · intro e he
    have : (init_kmer_dict e0).ref_pos = e0.ref_pos := rfl
    rw [this]; exact h e (by simp [he])
  · rw [hs.1]; simp [init_kmer_dict]; omega
  · rw [hs.2.1]; simp [init_kmer_dict]
  · rw [hs.2.2.1]
    by_cases hm : e0.mod_kmer = "NNNNN"
    · simp [init_kmer_dict, hm, List.filter_cons]
    · simp [init_kmer_dict, hm, List.filter_cons]
  · rw [hs.2.2.2]
    by_cases hc : e0.mod_kmer ≠ "NNNNN" ∧ e0.mod_kmer ≠ e0.ref_kmer
    · simp [init_kmer_dict, hc, List.filter_cons]
    · simp [init_kmer_dict, hc, List.filter_cons]

/-- Witness for C3 at the concrete same-position group `[evt 10, evt 10]`. -/
theorem same_position_group_collapse_witness :
    (∀ e ∈ (evt 10) :: [evt 10], e.ref_pos = (evt 10).ref_pos) ∧
    (collapse_kmer_list (init_kmer_dict (evt 10)) [evt 10]
      = [List.foldl update_kmer_dict (init_kmer_dict (evt 10)) [evt 10]] ∧
    (List.foldl update_kmer_dict (init_kmer_dict (evt 10)) [evt 10]).num_events
      = ((evt 10) :: [evt 10]).length ∧
    (List.foldl update_kmer_dict (init_kmer_dict (evt 10)) [evt 10]).dwell_time
      = (((evt 10) :: [evt 10]).map Event.event_len).sum ∧
    (List.foldl update_kmer_dict (init_kmer_dict (evt 10)) [evt 10]).NNNNN_dwell_time
      = ((((evt 10) :: [evt 10]).filter (fun e => decide (e.mod_kmer = "NNNNN"))).map
          Event.event_len).sum ∧
    (List.foldl update_kmer_dict (init_kmer_dict (evt 10)) [evt 10]).mismatch_dwell_time
      = ((((evt 10) :: [evt 10]).filter
            (fun e => decide (e.mod_kmer ≠ "NNNNN" ∧ e.mod_kmer ≠ e.ref_kmer))).map
          Event.event_len).sum) :=
  ⟨by decide, same_position_group_collapse (evt 10) [evt 10] (by decide)⟩

/-- C4 — the claim is FALSE on the code: the result for a one-event group is
not a function of the group alone.  The worker's local `pos_offset` survives
from the previously processed group (it is only assigned inside the event
loop, which a one-event group never enters), so the same group yields
`missing_kmers = 3` after a group that left `pos_offset = 4` but
`missing_kmers = 0` after one that left `pos_offset = 0`; on a fresh worker
the final `if pos_offset >= 2` raises `UnboundLocalError` and no pair is
produced at all. -/
theorem process_read_depends_on_leftover_pos_offset :
    (processRead cfg0 "r" "c" [evt 10] (some 4)).map (fun t => t.1.missing_kmers)
      = .ok 3 ∧
    (processRead cfg0 "r" "c" [evt 10] (some 0)).map (fun t => t.1.missing_kmers)
      = .ok 0 ∧
    processRead cfg0 "r" "c" [evt 10] none = .error () :=
  ⟨rfl, rfl, rfl⟩

/-- C5 counterexample — the claim asserts that folding a same-position event
overwrites BOTH `start_idx` and `end_idx` with the latest event's values; on
the code `end_idx` keeps the seeding event's value: seeding with indices
`(5, 9)` and folding an event with indices `(20, 30)` leaves
`end_idx = some 9`, not `some 30`. -/
theorem update_kmer_dict_keeps_seed_end_idx :
    (update_kmer_dict (init_kmer_dict (ev_idx 10 5 9)) (ev_idx 10 20 30)).start_idx
      = some 20 ∧
    (update_kmer_dict (init_kmer_dict (ev_idx 10 5 9)) (ev_idx 10 20 30)).end_idx
      = some 9 ∧
    (some (9 : Int) ≠ some (30 : Int)) := by decide

/-- C5 amended — when the optional sample-index columns are present, folding
a subsequent event overwrites only the aggregate's `start_idx` with the
latest event's start index; `end_idx` keeps the value it had (the seeding
event's end index), so a finalized aggregate carries the last-seen start
index and the first-seen end index. -/
theorem update_kmer_dict_overwrites_start_only (k : KmerD) (e : Event) (s t : Int)
    (h : e.idx = some (s, t)) :
    (update_kmer_dict k e).start_idx = some s ∧
    (update_kmer_dict k e).end_idx = k.end_idx := by
  simp [update_kmer_dict, h]

/-- Witness for the amended C5 at a concrete aggregate and event. -/
theorem update_kmer_dict_overwrites_start_only_witness :
    (ev_idx 10 20 30).idx = some (20, 30) ∧
    ((update_kmer_dict (init_kmer_dict (ev_idx 10 5 9)) (ev_idx 10 20 30)).start_idx
        = some 20 ∧
      (update_kmer_dict (init_kmer_dict (ev_idx 10 5 9)) (ev_idx 10 20 30)).end_idx
        = (init_kmer_dict (ev_idx 10 5 9)).end_idx) :=
  ⟨by decide,
   update_kmer_dict_overwrites_start_only (init_kmer_dict (ev_idx 10 5 9))
     (ev_idx 10 20 30) 20 30 (by decide)⟩

/-- C7 — for a read group with positions `[10, 10, 13, 14]` the summary has
`missing_kmers = 2`, `ref_start = 10` and `ref_end = 15`, whatever value the
worker's `pos_offset` local held beforehand. -/
theorem missing_kmer_example_10_10_13_14 :
    ∀ po : Option Int,
      (processRead cfg0 "r" "c" [evt 10, evt 10, evt 13, evt 14] po).map
        (fun t => (t.1.missing_kmers, t.1.ref_start, t.1.ref_end)) = .ok (2, 10, 15) := by
  intro po; rfl

/-! ### C8: eager configuration validation -/

lemma check_stat_fields_ok_iff (fields : List String) :
    check_stat_fields fields = .ok () ↔ ∀ f ∈ fields, f ∈ valid_stat_fields := by
  induction fields with
  | nil => simp [check_stat_fields]
  | cons f rest ih =>
    by_cases hf : f ∈ valid_stat_fields
    · simp [check_stat_fields, hf, ih]
    · simp [check_stat_fields, hf]

/-- C8 — the eager checks of `__init__`: `check_args` succeeds exactly when
the thread budget is at least 3 and every statistic field name is one of
`mean, std, median, mad, num_signals`; on an invalid configuration the whole
construction returns the configuration error and no pipeline output (data or
index content) is produced. -/
theorem config_validation (threads : Int) (fields : List String) (cfg : Config)
    (files : List (List Row)) (mr : Option Nat) :
    (check_args threads fields = .ok () ↔
      (3 ≤ threads ∧ ∀ f ∈ fields, f ∈ valid_stat_fields)) ∧
    (¬ (3 ≤ threads ∧ ∀ f ∈ fields, f ∈ valid_stat_fields) →
      ∃ msg, eventalign_collapse_init threads fields cfg files mr = .error msg) := by
  have hiff : check_args threads fields = .ok () ↔
      (3 ≤ threads ∧ ∀ f ∈ fields, f ∈ valid_stat_fields) := by
    unfold check_args
    by_cases ht : threads < 3
    · rw [if_pos ht]
      constructor
      · intro h; exact absurd h (by simp)
      · rintro ⟨h3, -⟩; exact absurd h3 (by omega)
    · rw [if_neg ht, check_stat_fields_ok_iff]
      constructor
      · intro h; exact ⟨by omega, h⟩
      · rintro ⟨-, h⟩; exact h
  refine ⟨hiff, fun hinv => ?_⟩
  cases hca : check_args threads fields with
  | error e =>
    exact ⟨e, by simp [eventalign_collapse_init, hca]⟩
  | ok u =>
    cases u
    exact absurd (hiff.mp hca) hinv

/-- Witness for C8: a 2-thread budget is rejected before any output exists,
and the default-style configuration passes the check. -/
theorem config_validation_witness :
    (∃ msg, eventalign_collapse_init 2 ["mean"] cfg0 [] none = .error msg) ∧
    check_args 4 ["mean"] = .ok () :=
  ⟨(config_validation 2 ["mean"] cfg0 [] none).2 (by decide),
   (config_validation 4 ["mean"] cfg0 [] none).1.mpr (by decide)⟩

/-! ### C9: bucket bounds invariant -/

lemma foldl_update_bounds (l : List Event) : ∀ k : KmerD,
    (∀ e ∈ l, 0 ≤ e.event_len) →
    0 ≤ k.NNNNN_dwell_time → 0 ≤ k.mismatch_dwell_time →
    k.NNNNN_dwell_time + k.mismatch_dwell_time ≤ k.dwell_time →
    0 ≤ (List.foldl update_kmer_dict k l).NNNNN_dwell_time ∧
    0 ≤ (List.foldl update_kmer_dict k l).mismatch_dwell_time ∧
    (List.foldl update_kmer_dict k l).NNNNN_dwell_time
        + (List.foldl update_kmer_dict k l).mismatch_dwell_time
      ≤ (List.foldl update_kmer_dict k l).dwell_time := by
  induction l with
  | nil => intro k _ h1 h2 h3; exact ⟨h1, h2, h3⟩
  | cons e rest ih =>
    intro k hl h1 h2 h3
    have hle : 0 ≤ e.event_len := hl e (by simp)
    rw [List.foldl_cons]
    refine ih (update_kmer_dict k e) (fun e' he' => hl e' (by simp [he'])) ?_ ?_ ?_
    · by_cases hm : e.mod_kmer = "NNNNN" <;> simp [update_kmer_dict, hm] <;> linarith
    · by_cases hc : e.mod_kmer ≠ "NNNNN" ∧ e.mod_kmer ≠ e.ref_kmer <;>
        simp [update_kmer_dict, hc] <;> linarith
    · by_cases hm : e.mod_kmer = "NNNNN"
      · simp [update_kmer_dict, hm]; linarith
      · by_cases hr : e.mod_kmer ≠ e.ref_kmer
        · simp [update_kmer_dict, hm, hr]; linarith
        · simp [update_kmer_dict, hm, hr]; linarith

/-- C9 — after seeding an aggregate from one event and folding in any number
of further events, all with nonnegative durations, both dwell-time buckets
are nonnegative and their sum never exceeds the total dwell time (each
duration goes to the total and to at most one bucket). -/
theorem kmer_bucket_bounds (e0 : Event) (l : List Event)
    (h0 : 0 ≤ e0.event_len) (hl : ∀ e ∈ l, 0 ≤ e.event_len) :
    0 ≤ (List.foldl update_kmer_dict (init_kmer_dict e0) l).NNNNN_dwell_time ∧
    0 ≤ (List.foldl update_kmer_dict (init_kmer_dict e0) l).mismatch_dwell_time ∧
    (List.foldl update_kmer_dict (init_kmer_dict e0) l).NNNNN_dwell_time
        + (List.foldl update_kmer_dict (init_kmer_dict e0) l).mismatch_dwell_time
      ≤ (List.foldl update_kmer_dict (init_kmer_dict e0) l).dwell_time := by
  refine foldl_update_bounds l (init_kmer_dict e0) hl ?_ ?_ ?_
  · by_cases hm : e0.mod_kmer = "NNNNN" <;> simp [init_kmer_dict, hm] <;> linarith
  · by_cases hc : e0.mod_kmer ≠ "NNNNN" ∧ e0.mod_kmer ≠ e0.ref_kmer <;>
      simp [init_kmer_dict, hc] <;> linarith
  · by_cases hm : e0.mod_kmer = "NNNNN"
    · simp [init_kmer_dict, hm]
    · by_cases hr : e0.mod_kmer ≠ e0.ref_kmer
      · simp [init_kmer_dict, hm, hr]
      · simp [init_kmer_dict, hm, hr]; linarith

/-- Witness for C9 at a concrete seed and one fold. -/
theorem kmer_bucket_bounds_witness :
    (0 ≤ (evt 10).event_len) ∧ (∀ e ∈ [evt 10], 0 ≤ e.event_len) ∧
    (0 ≤ (List.foldl update_kmer_dict (init_kmer_dict (evt 10)) [evt 10]).NNNNN_dwell_time ∧
     0 ≤ (List.foldl update_kmer_dict (init_kmer_dict (evt 10)) [evt 10]).mismatch_dwell_time ∧
     (List.foldl update_kmer_dict (init_kmer_dict (evt 10)) [evt 10]).NNNNN_dwell_time
         + (List.foldl update_kmer_dict (init_kmer_dict (evt 10)) [evt 10]).mismatch_dwell_time
       ≤ (List.foldl update_kmer_dict (init_kmer_dict (evt 10)) [evt 10]).dwell_time) :=
  ⟨by decide, by decide, kmer_bucket_bounds (evt 10) [evt 10] (by decide) (by decide)⟩

/-! ### C6: index/data consistency of the writer -/

lemma write_output_go_spec :
    ∀ (items : List (ReadD × String)) (off i : Nat) (p : ReadD × String),
    items[i]? = some p →
    ∃ r, ((write_output_go off items).2)[i]? = some r ∧
      r.byte_offset = off + ((items.take i).map (fun q => q.2.length)).sum ∧
      r.byte_len = (p.2.length : Int) - 1 ∧
      (((write_output_go off items).1).data.drop
          (((items.take i).map (fun q => q.2.length)).sum)).take (p.2.length - 1)
        = p.2.data.take (p.2.length - 1) := by
  intro items
  induction items with
  | nil => intro off i p hp; simp at hp
  | cons a rest ih =>
    obtain ⟨rd, s⟩ := a
    intro off i p hp
    cases i with
    | zero =>
      simp only [List.getElem?_cons_zero, Option.some.injEq] at hp
      subst hp
      simp only [write_output_go, List.getElem?_cons_zero, List.take_zero, List.map_nil,
        List.sum_nil, List.drop_zero, Nat.add_zero]
      refine ⟨_, rfl, rfl, rfl, ?_⟩
      rw [String.data_append]
      have hle : s.length - 1 ≤ s.data.length := by
        have : s.data.length = s.length := rfl
        omega
      rw [List.take_append_of_le_length hle]
    | succ j =>
      simp only [List.getElem?_cons_succ] at hp
      obtain ⟨r, hr1, hr2, hr3, hr4⟩ := ih (off + s.length) j p hp
      refine ⟨r, ?_, ?_, hr3, ?_⟩
      · simpa only [write_output_go, List.getElem?_cons_succ] using hr1
      · rw [hr2]
        simp only [List.take_succ_cons, List.map_cons, List.sum_cons]
        omega
      · simp only [write_output_go, List.take_succ_cons, List.map_cons, List.sum_cons]
        rw [String.data_append]
        show ((s.data ++ (write_output_go (off + s.length) rest).1.data).drop
            (s.data.length + ((rest.take j).map (fun q => q.2.length)).sum)).take
            (p.2.length - 1) = p.2.data.take (p.2.length - 1)
        rw [List.drop_append]
        exact hr4

/-- C6 — for every index record, `byte_offset` is the total length of the
blocks written before it, `byte_len` is its own block's length minus one,
and reading `byte_len` characters of the data file starting at `byte_offset`
yields the block minus its trailing newline — for an arbitrary arrival order
of (summary, block) pairs. -/
theorem index_data_consistency (items : List (ReadD × String)) (i : Nat)
    (p : ReadD × String) (hp : items[i]? = some p)
    (hnl : p.2.data ≠ [] ∧ p.2.data.getLast? = some '\n') :
    ∃ r, ((write_output items).2)[i]? = some r ∧
      r.byte_offset = ((items.take i).map (fun q => q.2.length)).sum ∧
      r.byte_len = (p.2.length : Int) - 1 ∧
      ((write_output items).1.data.drop r.byte_offset).take r.byte_len.toNat
        = p.2.data.dropLast ∧
      p.2.data.dropLast ++ ['\n'] = p.2.data := by
  obtain ⟨r, h1, h2, h3, h4⟩ := write_output_go_spec items 0 i p hp
  have hlen : p.2.length = p.2.data.length := rfl
  refine ⟨r, h1, by rw [h2]; omega, h3, ?_, ?_⟩
  · have ht : r.byte_len.toNat = p.2.length - 1 := by rw [h3]; omega
    have ho : r.byte_offset = ((items.take i).map (fun q => q.2.length)).sum := by
      rw [h2]; omega
    rw [ht, ho, write_output, h4, List.dropLast_eq_take, ← hlen]
  · exact List.dropLast_append_getLast? '\n' (Option.mem_def.mpr hnl.2)

/-- A concrete summary value for the C6 witness. -/
def rd_w : ReadD :=
  { read_id := "r", ref_id := "c", dwell_time := 1, kmers := 1, NNNNN_kmers := 0,
    mismatch_kmers := 0, missing_kmers := 0, ref_start := 10, ref_end := 11 }

/-- Witness for C6 at two concrete blocks, checking the second record. -/
theorem index_data_consistency_witness :
    ([(rd_w, "a\n"), (rd_w, "bc\n")][1]? = some (rd_w, "bc\n")) ∧
    (("bc\n" : String).data ≠ [] ∧ ("bc\n" : String).data.getLast? = some '\n') ∧
    (∃ r, ((write_output [(rd_w, "a\n"), (rd_w, "bc\n")]).2)[1]? = some r ∧
      r.byte_offset
        = (([(rd_w, "a\n"), (rd_w, "bc\n")].take 1).map (fun q => q.2.length)).sum ∧
      r.byte_len = (("bc\n" : String).length : Int) - 1 ∧
      ((write_output [(rd_w, "a\n"), (rd_w, "bc\n")]).1.data.drop r.byte_offset).take
          r.byte_len.toNat
        = ("bc\n" : String).data.dropLast ∧
      ("bc\n" : String).data.dropLast ++ ['\n'] = ("bc\n" : String).data) :=
  ⟨rfl, ⟨by decide, rfl⟩,
   index_data_consistency [(rd_w, "a\n"), (rd_w, "bc\n")] 1 (rd_w, "bc\n") rfl
     ⟨by decide, rfl⟩⟩

/-! ### C10: the kmer counter counts the block's kmer lines -/

lemma digit_char_ne_nl (n : Nat) : digit_char n ≠ '\n' := by
  unfold digit_char
  split <;> decide

lemma nat_digits_no_nl (n : Nat) : '\n' ∉ nat_digits n := by
  induction n using Nat.strong_induction_on with
  | _ n ih =>
    unfold nat_digits
    split
    · simp only [List.mem_singleton]
      exact (digit_char_ne_nl n).symm
    · intro hmem
      rcases List.mem_append.mp hmem with h | h
      · exact ih (n / 10) (Nat.div_lt_self (by omega) (by omega)) h
      · rw [List.mem_singleton] at h
        exact digit_char_ne_nl n h.symm

lemma natStr_count (n : Nat) : (natStr n).data.count '\n' = 0 :=
  List.count_eq_zero.mpr (nat_digits_no_nl n)

lemma intStr_count (i : Int) : (intStr i).data.count '\n' = 0 := by
  unfold intStr
  split
  · rw [String.data_append, List.count_append, natStr_count]
    decide
  · exact natStr_count _

/-- All raw sample strings of an optional sample list are newline-free
(vacuously true when the optional column is absent). -/
abbrev samples_no_nl (o : Option (List String)) : Prop :=
  ∀ s ∈ o.getD [], '\n' ∉ s.data

lemma comma_join_count : ∀ sl : List String,
    (∀ s ∈ sl, '\n' ∉ s.data) → (comma_join sl).data.count '\n' = 0 := by
  intro sl
  induction sl with
  | nil => intro _; decide
  | cons s rest ih =>
    intro h
    cases rest with
    | nil => exact List.count_eq_zero.mpr (h s (by simp))
    | cons s2 rest2 =>
      show ((s ++ "," ++ comma_join (s2 :: rest2)).data).count '\n' = 0
      simp only [String.data_append, List.count_append]
      rw [List.count_eq_zero.mpr (h s (by simp)),
        ih (fun x hx => h x (by simp [hx]))]
      decide

lemma count_nl_append_zero (a b : String)
    (ha : a.data.count '\n' = 0) (hb : b.data.count '\n' = 0) :
    (a ++ b).data.count '\n' = 0 := by
  rw [String.data_append, List.count_append, ha, hb]

lemma count_nl_ite_zero (c : Prop) [Decidable c] (a b : String)
    (ha : a.data.count '\n' = 0) (hb : b.data.count '\n' = 0) :
    (if c then a else b).data.count '\n' = 0 := by
  split <;> assumption

lemma stat_suffix_count (cfg : Config) (sl : List String)
    (hst : ∀ f sl, '\n' ∉ (cfg.renderStat f sl).data) :
    (stat_suffix cfg sl).data.count '\n' = 0 := by
  have hS : ∀ f sl, (cfg.renderStat f sl).data.count '\n' = 0 :=
    fun f sl => List.count_eq_zero.mpr (hst f sl)
  have hT : ("\t" : String).data.count '\n' = 0 := by decide
  have h0 : ("" : String).data.count '\n' = 0 := by decide
  simp only [stat_suffix, String.data_append, List.count_append,
    apply_ite String.data, apply_ite (List.count '\n'), hS, hT, h0,
    ite_self, Nat.add_zero, Nat.zero_add]

lemma header_stat_suffix_count (cfg : Config) :
    (header_stat_suffix cfg).data.count '\n' = 0 := by
  have h1 : ("\tmean" : String).data.count '\n' = 0 := by decide
  have h2 : ("\tstd" : String).data.count '\n' = 0 := by decide
  have h3 : ("\tmedian" : String).data.count '\n' = 0 := by decide
  have h4 : ("\tmad" : String).data.count '\n' = 0 := by decide
  have h5 : ("\tnum_signals" : String).data.count '\n' = 0 := by decide
  have h0 : ("" : String).data.count '\n' = 0 := by decide
  simp only [header_stat_suffix, String.data_append, List.count_append,
    apply_ite String.data, apply_ite (List.count '\n'), h1, h2, h3, h4, h5, h0,
    ite_self, Nat.add_zero, Nat.zero_add]

lemma kmer_dict_to_str_count (cfg : Config) (k : KmerD)
    (h1 : '\n' ∉ k.ref_kmer.data) (h2 : samples_no_nl k.sample_list)
    (hf : ∀ q, '\n' ∉ (cfg.renderFloat q).data)
    (hst : ∀ f sl, '\n' ∉ (cfg.renderStat f sl).data) :
    (kmer_dict_to_str cfg k).data.count '\n' = 0 := by
  have hK : k.ref_kmer.data.count '\n' = 0 := List.count_eq_zero.mpr h1
  have hF : ∀ q, (cfg.renderFloat q).data.count '\n' = 0 :=
    fun q => List.count_eq_zero.mpr (hf q)
  have hT : ("\t" : String).data.count '\n' = 0 := by decide
  have h0 : ("" : String).data.count '\n' = 0 := by decide
  rcases hsl : k.sample_list with _ | sl
  · simp only [kmer_dict_to_str, hsl]
    rcases hs : k.start_idx with _ | si <;>
      simp only [String.data_append, List.count_append, intStr_count, natStr_count,
        hT, hK, hF, Nat.add_zero, Nat.zero_add]
  · have hJ : (comma_join sl).data.count '\n' = 0 :=
      comma_join_count sl (by intro s hs; exact h2 s (by rw [hsl]; exact hs))
    have hSfx : (stat_suffix cfg sl).data.count '\n' = 0 := stat_suffix_count cfg sl hst
    simp only [kmer_dict_to_str, hsl]
    rcases hs : k.start_idx with _ | si <;>
      simp only [String.data_append, List.count_append, intStr_count, natStr_count,
        hT, hK, hF, hJ, hSfx, h0, apply_ite String.data, apply_ite (List.count '\n'),
        ite_self, Nat.add_zero, Nat.zero_add]

lemma make_ouput_header_count (cfg : Config) (e : Event) :
    (make_ouput_header cfg e).data.count '\n' = 0 := by
  have hB : ("ref_pos\tref_kmer\tnum_events\tdwell_time\tNNNNN_dwell_time\tmismatch_dwell_time" :
      String).data.count '\n' = 0 := by decide
  have hI : ("\tstart_idx\tend_idx" : String).data.count '\n' = 0 := by decide
  have hSm : ("\tsamples" : String).data.count '\n' = 0 := by decide
  have h0 : ("" : String).data.count '\n' = 0 := by decide
  rcases hsl : e.sample_list with _ | sl
  · simp only [make_ouput_header, hsl]
    rcases he : e.idx with _ | pr <;> simp only [he] <;> decide
  · simp only [make_ouput_header, hsl]
    rcases he : e.idx with _ | pr <;>
      simp only [he, String.data_append, List.count_append, header_stat_suffix_count,
        hB, hI, hSm, h0, apply_ite String.data, apply_ite (List.count '\n'),
        ite_self, Nat.add_zero, Nat.zero_add]

lemma read_header_str_count (cfg : Config) (rid ref : String) (e0 : Event)
    (hrid : '\n' ∉ rid.data) (href : '\n' ∉ ref.data) :
    (read_header_str cfg rid ref e0).data.count '\n' = 2 := by
  simp only [read_header_str, String.data_append, List.count_append]
  rw [List.count_eq_zero.mpr hrid, List.count_eq_zero.mpr href,
    make_ouput_header_count cfg e0]
  decide

lemma update_kmer_dict_ref_kmer (k : KmerD) (e : Event) :
    (update_kmer_dict k e).ref_kmer = k.ref_kmer := rfl

lemma update_kmer_dict_samples (k : KmerD) (e : Event)
    (hk : samples_no_nl k.sample_list) (he : samples_no_nl e.sample_list) :
    samples_no_nl (update_kmer_dict k e).sample_list := by
  intro s hs
  rcases hes : e.sample_list with _ | esl
  · exact hk s (by simpa [update_kmer_dict, hes] using hs)
  · have : s ∈ k.sample_list.getD [] ++ esl := by
      simpa [update_kmer_dict, hes] using hs
    rcases List.mem_append.mp this with h | h
    · exact hk s h
    · exact he s (by rw [hes]; exact h)

lemma processEvents_count (cfg : Config)
    (hf : ∀ q, '\n' ∉ (cfg.renderFloat q).data)
    (hst : ∀ f sl, '\n' ∉ (cfg.renderStat f sl).data) :
    ∀ (l : List Event) (rd : ReadD) (kd : KmerD) (acc : String) (po : Option Int),
    (∀ e ∈ l, '\n' ∉ e.ref_kmer.data ∧ samples_no_nl e.sample_list) →
    '\n' ∉ kd.ref_kmer.data → samples_no_nl kd.sample_list →
    acc.data.count '\n' = rd.kmers + 2 →
    ((processEvents cfg rd kd acc po l).2.2.1).data.count '\n'
        = (processEvents cfg rd kd acc po l).1.kmers + 2 ∧
    '\n' ∉ ((processEvents cfg rd kd acc po l).2.1).ref_kmer.data ∧
    samples_no_nl ((processEvents cfg rd kd acc po l).2.1).sample_list := by
  intro l
  induction l with
  | nil => intro rd kd acc po _ hk1 hk2 hacc; exact ⟨hacc, hk1, hk2⟩
  | cons e rest ih =>
    intro rd kd acc po hl hk1 hk2 hacc
    have he := hl e (by simp)
    by_cases hoff : e.ref_pos - kd.ref_pos = 0
    · simp only [processEvents]
      rw [if_pos hoff]
      refine ih rd (update_kmer_dict kd e) acc _
        (fun e' h' => hl e' (by simp [h'])) ?_ ?_ hacc
      · rw [update_kmer_dict_ref_kmer]; exact hk1
      · exact update_kmer_dict_samples kd e hk2 he.2
    · simp only [processEvents]
      rw [if_neg hoff]
      refine ih _ (init_kmer_dict e) _ _
        (fun e' h' => hl e' (by simp [h'])) ?_ ?_ ?_
      · show '\n' ∉ (init_kmer_dict e).ref_kmer.data
        exact he.1
      · show samples_no_nl (init_kmer_dict e).sample_list
        exact he.2
      · show ((acc ++ kmer_dict_to_str cfg kd ++ "\n").data).count '\n' = _
        simp only [String.data_append, List.count_append]
        rw [hacc, kmer_dict_to_str_count cfg kd hk1 hk2 hf hst]
        have h1 : ("\n" : String).data.count '\n' = 1 := by decide
        rw [h1]

/-- C10 — whenever `_process_read` succeeds on a read group (ids, reference
kmers and raw sample strings free of embedded newlines — automatically true
of fields obtained by tab-splitting an input line — and the float/statistic
renderers newline-free), the block's newline count — its line count — is the
summary's `kmers` counter plus the two header lines: one kmer line per
finalized aggregate.  This covers both the sample-free and the raw-samples
(`--samples`) mode. -/
theorem kmers_counts_block_lines (cfg : Config) (read_id ref_id : String)
    (l : List Event) (po : Option Int) (out : ReadD × String × Option Int)
    (hrid : '\n' ∉ read_id.data) (href : '\n' ∉ ref_id.data)
    (hev : ∀ e ∈ l, '\n' ∉ e.ref_kmer.data ∧ samples_no_nl e.sample_list)
    (hf : ∀ q, '\n' ∉ (cfg.renderFloat q).data)
    (hst : ∀ f sl, '\n' ∉ (cfg.renderStat f sl).data)
    (hok : processRead cfg read_id ref_id l po = .ok out) :
    out.2.1.data.count '\n' = out.1.kmers + 2 := by
  cases l with
  | nil => simp [processRead] at hok
  | cons e0 rest =>
    have he0 := hev e0 (by simp)
    have hpe := processEvents_count cfg hf hst rest (initial_read_d read_id ref_id e0)
      (init_kmer_dict e0) (read_header_str cfg read_id ref_id e0) po
      (fun e' h' => hev e' (by simp [h']))
      he0.1 he0.2
      (by rw [read_header_str_count cfg read_id ref_id e0 hrid href]; rfl)
    simp only [processRead] at hok
    generalize hT : processEvents cfg (initial_read_d read_id ref_id e0)
      (init_kmer_dict e0) (read_header_str cfg read_id ref_id e0) po rest = T at hok hpe
    obtain ⟨trd, tkd, tacc, tpo⟩ := T
    cases tpo with
    | none => simp at hok
    | some v =>
      simp only [Except.ok.injEq] at hok
      subst hok
      simp only at hpe
      have hkmer0 : (kmer_dict_to_str cfg tkd).data.count '\n' = 0 :=
        kmer_dict_to_str_count cfg tkd hpe.2.1 hpe.2.2 hf hst
      simp only [String.data_append, List.count_append]
      rw [hpe.1, hkmer0]
      have h1 : ("\n" : String).data.count '\n' = 1 := by decide
      rw [h1]
      simp only [apply_ite ReadD.kmers, ite_self]

/-- A sample-bearing event at position `p` with unit duration, for the C10
witness (raw-samples mode). -/
def evs (p : Int) : Event :=
  { ref_pos := p, ref_kmer := "AAAAA", mod_kmer := "AAAAA", event_len := 1,
    sample_list := some ["3.5", "2.1"] }

/-- Witness for C10 at a concrete group carrying raw sample lists. -/
theorem kmers_counts_block_lines_witness :
    ('\n' ∉ ("r" : String).data) ∧ ('\n' ∉ ("c" : String).data) ∧
    (∀ e ∈ [evs 10, evs 13], '\n' ∉ e.ref_kmer.data ∧ samples_no_nl e.sample_list) ∧
    (∀ q, '\n' ∉ (cfg0.renderFloat q).data) ∧
    (∀ f sl, '\n' ∉ (cfg0.renderStat f sl).data) ∧
    (∃ out, processRead cfg0 "r" "c" [evs 10, evs 13] (some 0) = .ok out ∧
      out.2.1.data.count '\n' = out.1.kmers + 2) := by
  refine ⟨by decide, by decide, by decide, fun q => List.not_mem_nil '\n',
    fun f sl => List.not_mem_nil '\n', ?_⟩
  refine ⟨_, rfl, ?_⟩
  exact kmers_counts_block_lines cfg0 "r" "c" [evs 10, evs 13] (some 0) _
    (by decide) (by decide) (by decide) (fun q => List.not_mem_nil '\n')
    (fun f sl => List.not_mem_nil '\n') rfl

end EventalignCollapse
